import Mathlib

/-!
Shallow embedding of `src/rviz/displays_panel.cpp` (class `DisplaysPanel`).

The panel orchestrates lifecycle operations (add, duplicate, delete, rename,
save-group, load-group) on an ordered registry of `Display` items and derives
button affordances from the current selection.  Interactive collaborators
(dialogs, the file system, the YAML reader/writer) are modelled as inputs to
each operation; the externally observable behaviour of an operation is its
event trace plus the updated registry state.
-/

namespace Rviz

/-- A configuration snapshot: `rviz::Config`, a value type holding a display's
serialized state.  Modelled as an opaque value with decidable equality; only
value-equality of snapshots matters to the panel logic. -/
structure Config where
  entries : List (String × String)
deriving DecidableEq, Repr

/-- The fresh, empty `Config config;` constructed by the panel code. -/
def Config.empty : Config := ⟨[]⟩

/-- A `rviz::Display` item: a stable class id (`getClassId`), a mutable name
(`getName`/`setName`), its serializable configuration state, and an identity
(the C++ object address, modelled as a numeric uid). -/
structure Display where
  uid : Nat
  classId : String
  name : String
  config : Config
deriving DecidableEq, Repr

/-- Whether the factory class behind a class id is `rviz::DisplayGroup`
(the `dynamic_cast<DisplayGroup*>` test succeeds exactly for instances of
group classes). -/
def classIsGroup (classId : String) : Bool :=
  classId = "rviz/Group"

/-- `dynamic_cast<DisplayGroup*>(d) != NULL` for a display `d`. -/
def Display.isGroup (d : Display) : Bool :=
  classIsGroup d.classId

/-- `Display::save(Config&)`: serializes the display's full configuration
state into the (fresh) config. -/
def Display.save (d : Display) (_c : Config) : Config :=
  d.config

/-- `Display::load(const Config&)`: restores the display's configuration
state from the snapshot. -/
def Display.load (d : Display) (c : Config) : Display :=
  { d with config := c }

/-- State of the `VisualizationManager` host as seen by the panel: the ordered
registry of live displays and the supply of fresh identities. -/
structure VMState where
  registry : List Display
  nextUid : Nat
deriving Repr

/-- Every live display's identity was drawn from the uid supply: all uids in
the registry are below `nextUid`.  Holds for any reachable host state and is
preserved by `createDisplay`. -/
def VMState.uidsFresh (s : VMState) : Prop :=
  ∀ d ∈ s.registry, d.uid < s.nextUid

/-- `VisualizationManager::createDisplay(lookup_name, name, true)`: the factory
instantiates a fresh display of class `lookup_name` named `name` (default
configuration) and appends it to the registry. -/
def VMState.createDisplay (s : VMState) (lookupName displayName : String) :
    Display × VMState :=
  let d : Display := { uid := s.nextUid, classId := lookupName,
                       name := displayName, config := Config.empty }
  (d, { registry := s.registry ++ [d], nextUid := s.nextUid + 1 })

/-- Observable events emitted by a panel operation, in program order. -/
inductive Event where
  | stopUpdate : Event
  | startUpdate : Event
  | prompt : Event
  | createDisplay (classId name : String) : Event
  | setTopic (uid : Nat) (topic datatype : String) : Event
  | disconnect (uid : Nat) : Event
  | deleteLater (uid : Nat) : Event
  | destroy (uid : Nat) : Event
  | selectRow (row : Nat) : Event
  | selectRange (first last : Nat) : Event
  | notifyConfigChanged : Event
  | showError (title message : String) : Event
  | writeFile (filename : String) (config : Config) : Event
  | readFile (filename : String) : Event
  | loadGroup : Event
deriving DecidableEq, Repr

/-- `property_grid_->getSelectedObjects<Display>()`: the selected display
items, in tree order; the tree rows of displays are their registry positions,
so the selection is a list of registry positions resolved to items. -/
def getSelectedObjects (registry : List Display) (sel : List Nat) :
    List Display :=
  sel.filterMap (fun p => registry.get? p)

/-- `property_grid_->getModel()->indexOf(display)`: the tree row of a
display, i.e. its position in the registry (identity lookup). -/
def indexOfDisplay (registry : List Display) (d : Display) : Nat :=
  registry.findIdx (fun x => x.uid = d.uid)

/-!  ## Delete — `DisplaysPanel::onDeleteDisplay` (lines 193-217)  -/

/-- `DisplaysPanel::onDeleteDisplay`.  `sel` is the list of tree rows of the
currently selected displays.  For the first selected display (loop iteration
`i == 0`) the row just above it is remembered as `new_selected`; every
selected display is `disconnect()`ed and then scheduled with `deleteLater()`;
finally `new_selected` is selected (`ClearAndSelect`, modelled by the second
component: `none` means the invalid `QModelIndex`, i.e. a cleared selection)
and `notifyConfigChanged` fires. -/
def onDeleteDisplay (registry : List Display) (sel : List Nat) :
    List Event × Option Nat :=
  let ds := getSelectedObjects registry sel
  let newSelected :=
    ds.head?.map (fun first => indexOfDisplay registry first - 1)
  (ds.flatMap (fun d => [Event.disconnect d.uid, Event.deleteLater d.uid])
     ++ [Event.notifyConfigChanged],
   newSelected)

/-- Eventual effect of the deferred destructions scheduled by delete: each
scheduled display later removes itself from the registry. -/
def registryAfterDeferredDelete (registry : List Display) (sel : List Nat) :
    List Display :=
  (registry.enum.filter (fun pd => decide (pd.1 ∉ sel))).map Prod.snd

/-!  ## Add — `DisplaysPanel::onNewDisplay` (lines 131-162)  -/

/-- Outcome of the `AddDisplayDialog`: `none` when the user cancelled
(`exec() != QDialog::Accepted`), otherwise the lookup name, display name,
topic and datatype the dialog filled in. -/
def DialogResult := Option (String × String × String × String)

/-- `DisplaysPanel::onNewDisplay`.  The update loop is stopped, the dialog
runs (`prompt`); on acceptance a display is created via the factory and, when
both topic and datatype are non-empty, `setTopic` is called on it; the update
loop is restarted on both paths. -/
def onNewDisplay (s : VMState) (dialog : DialogResult) :
    VMState × List Event :=
  match dialog with
  | none => (s, [Event.stopUpdate, Event.prompt, Event.startUpdate])
  | some (lookupName, displayName, topic, datatype) =>
    let (disp, s1) := s.createDisplay lookupName displayName
    let topicEvents :=
      if ¬topic.isEmpty ∧ ¬datatype.isEmpty then
        [Event.setTopic disp.uid topic datatype]
      else []
    (s1, [Event.stopUpdate, Event.prompt,
          Event.createDisplay lookupName displayName]
         ++ topicEvents ++ [Event.startUpdate])

/-!  ## Duplicate — `DisplaysPanel::onDuplicateDisplay` (lines 164-191)  -/

/-- The loop body of `onDuplicateDisplay`, iterated over the selected
displays in order: create a display of the source's class id and name via the
factory, snapshot the source into a fresh `Config`, and load the snapshot
into the new display (the new display sits at the end of the registry).
Returns the final state, the `duplicated_displays` list, and the creation
events. -/
def duplicateLoop (s : VMState) (ds : List Display) :
    VMState × List Display × List Event :=
  match ds with
  | [] => (s, [], [])
  | src :: rest =>
    let created := s.createDisplay src.classId src.name
    let config := src.save Config.empty
    let disp := created.1.load config
    let s2 : VMState :=
      { created.2 with registry := created.2.registry.dropLast ++ [disp] }
    let r := duplicateLoop s2 rest
    (r.1, disp :: r.2.1,
     Event.createDisplay src.classId src.name :: r.2.2)

/-- Placeholder display: `QList::front()`/`back()` on an empty list are
undefined, and the code guards against that with a size check. -/
def Display.dummy : Display := ⟨0, "", "", Config.empty⟩

/-- `DisplaysPanel::onDuplicateDisplay`.  Each selected display is duplicated
in selection order; if any were created (`duplicated_displays.size() > 0`),
the selection is replaced by the contiguous range from the first
(`front()`) to the last (`back()`) duplicate; `startUpdate` is called
unconditionally at the end (note: the operation never calls
`stopUpdate`). -/
def onDuplicateDisplay (s : VMState) (sel : List Nat) :
    VMState × List Event :=
  let ds := getSelectedObjects s.registry sel
  let r := duplicateLoop s ds
  let selectEvents :=
    if 0 < r.2.1.length then
      [Event.selectRange
        (indexOfDisplay r.1.registry (r.2.1.headD Display.dummy))
        (indexOfDisplay r.1.registry (r.2.1.getLastD Display.dummy))]
    else []
  (r.1, r.2.2 ++ selectEvents ++ [Event.startUpdate])

/-!  ## Selection affordances — `DisplaysPanel::onSelectionChanged`
     (lines 219-231)  -/

/-- The enabled/disabled state of the four selection-dependent buttons. -/
structure Affordances where
  duplicateEnabled : Bool
  removeEnabled : Bool
  renameEnabled : Bool
  saveGroupEnabled : Bool
deriving DecidableEq, Repr

/-- `DisplaysPanel::onSelectionChanged`: recomputes the button affordances
from the current selection.  `is_group` holds when exactly one display is
selected and the `dynamic_cast<DisplayGroup*>` on it succeeds. -/
def onSelectionChanged (registry : List Display) (sel : List Nat) :
    Affordances :=
  let displays := getSelectedObjects registry sel
  let numDisplaysSelected := displays.length
  let isGroup := numDisplaysSelected = 1 &&
    (match displays.head? with
     | some d => d.isGroup
     | none => false)
  { duplicateEnabled := numDisplaysSelected > 0,
    removeEnabled := numDisplaysSelected > 0,
    renameEnabled := numDisplaysSelected = 1,
    saveGroupEnabled := isGroup }

/-!  ## Rename — `DisplaysPanel::onRenameDisplay` (lines 233-256)  -/

/-- `DisplaysPanel::onRenameDisplay`.  A no-op on an empty selection;
otherwise prompts for a new name for the first selected display
(`newName` is the `QInputDialog::getText` result; cancellation yields the
empty string).  An empty or unchanged name is a no-op; otherwise that
display's name is set in place. -/
def onRenameDisplay (registry : List Display) (sel : List Nat)
    (newName : String) : List Display × List Event :=
  match getSelectedObjects registry sel with
  | [] => (registry, [])
  | displayToRename :: _ =>
    let oldName := displayToRename.name
    if newName.isEmpty ∨ newName = oldName then
      (registry, [Event.prompt])
    else
      (registry.map (fun d =>
         if d.uid = displayToRename.uid then { d with name := newName }
         else d),
       [Event.prompt])

/-!  ## Save Group — `DisplaysPanel::onSaveGroupDisplay` (lines 258-308)  -/

/-- The canonical config file extension (`CONFIG_EXTENSION`). -/
def CONFIG_EXTENSION : String := "rviz"

/-- Split a character list on a separator; always returns at least one
(possibly empty) piece. -/
def splitOnChar (sep : Char) : List Char → List (List Char)
  | [] => [[]]
  | c :: cs =>
    let rest := splitOnChar sep cs
    if c = sep then [] :: rest
    else
      match rest with
      | [] => [[c]]
      | piece :: pieces => (c :: piece) :: pieces

/-- `boost::filesystem::path(filename).extension()`: from the last path
component, the substring starting at the rightmost dot (empty when the
component has no dot or is `.` or `..`). -/
def pathExtension (filename : String) : String :=
  let comp := (splitOnChar '/' filename.toList).getLastD []
  if comp = ['.'] ∨ comp = ['.', '.'] then ""
  else
    let pieces := splitOnChar '.' comp
    if pieces.length ≤ 1 then ""
    else String.mk ('.' :: pieces.getLastD [])

/-- `DisplaysPanel::onSaveGroupDisplay`.  A no-op unless exactly one display
is selected.  Brackets the file dialog (`prompt`) with stop/start of the
update loop; an empty filename (cancel) returns; a missing or mismatched
extension is fixed by appending the canonical one; the display's config is
saved and written; a writer error surfaces a critical message box with the
writer's message. -/
def onSaveGroupDisplay (registry : List Display) (sel : List Nat)
    (saveFilename : String) (writerError : Option String) : List Event :=
  match getSelectedObjects registry sel with
  | [displayToSave] =>
    [Event.stopUpdate, Event.prompt, Event.startUpdate] ++
    (if saveFilename.isEmpty then []
     else
       let filename :=
         if pathExtension saveFilename ≠ "." ++ CONFIG_EXTENSION then
           saveFilename ++ "." ++ CONFIG_EXTENSION
         else saveFilename
       let config := displayToSave.save Config.empty
       [Event.writeFile filename config] ++
       (match writerError with
        | some msg => [Event.showError "Failed to save." msg]
        | none => []))
  | _ => []

/-!  ## Load Group — `DisplaysPanel::onLoadGroupDisplay` (lines 310-336)  -/

/-- `DisplaysPanel::onLoadGroupDisplay`.  Brackets the file dialog with
stop/start of the update loop; an empty filename (cancel) returns; a
nonexistent path surfaces a critical message box and returns; a reader error
returns silently; on success the host materializes the group
(`loadGroup`). -/
def onLoadGroupDisplay (filename : String) (pathExists readOk : Bool) :
    List Event :=
  [Event.stopUpdate, Event.prompt, Event.startUpdate] ++
  (if filename.isEmpty then []
   else if ¬pathExists then
     [Event.showError "Config file does not exist"
        (filename ++ " does not exist!")]
   else
     [Event.readFile filename] ++
     (if ¬readOk then [] else [Event.loadGroup]))

/-!  ## Pause/resume accounting  -/

/-- Every resume of the update loop is matched by an earlier pause: in every
prefix of the trace, `startUpdate` events never outnumber `stopUpdate`
events. -/
def resumesMatched (tr : List Event) : Prop :=
  ∀ n : Nat,
    (tr.take n).count Event.startUpdate ≤ (tr.take n).count Event.stopUpdate

/-!  ## Concrete fixtures (used by witnesses)  -/

/-- A non-group display at registry position 0. -/
def dispA : Display := ⟨0, "rviz/Grid", "Grid", Config.empty⟩

/-- A non-group display at registry position 1. -/
def dispB : Display := ⟨1, "rviz/Image", "Image", ⟨[("Topic", "/img")]⟩⟩

/-- A group display at registry position 2. -/
def dispC : Display := ⟨2, "rviz/Group", "MyGroup", ⟨[("Displays", "…")]⟩⟩

/-- A three-display registry with all uids below 3. -/
def registryABC : List Display := [dispA, dispB, dispC]

/-- The fixture registry as a host state with a fresh uid supply. -/
def stateABC : VMState := { registry := registryABC, nextUid := 3 }

/-!  ## Helper lemmas  -/

/-- In a delete trace (per-display `[disconnect, deleteLater]` blocks followed
by a tail free of `deleteLater` events), every `deleteLater u` occurrence is
preceded by a `disconnect u` occurrence. -/
lemma deleteLater_preceded_by_disconnect (ds : List Display)
    (tail : List Event) (htail : ∀ u, Event.deleteLater u ∉ tail) (u : Nat) :
    ∀ j,
      ((ds.flatMap fun d => [Event.disconnect d.uid, Event.deleteLater d.uid])
          ++ tail).get? j = some (Event.deleteLater u) →
      ∃ i, i < j ∧
        ((ds.flatMap fun d => [Event.disconnect d.uid, Event.deleteLater d.uid])
            ++ tail).get? i = some (Event.disconnect u) := by
  induction ds with
  | nil =>
    intro j h
    simp only [List.flatMap_nil, List.nil_append] at h
    exact absurd (List.get?_mem h) (htail u)
  | cons d rest ih =>
    intro j h
    simp only [List.flatMap_cons, List.cons_append, List.append_assoc] at h ⊢
    match j with
    | 0 => simp at h
    | 1 =>
      refine ⟨0, by omega, ?_⟩
      simp only [List.get?_cons_succ, List.get?_cons_zero] at h ⊢
      injection h with h
      injection h with h
      rw [h]
    | (n + 2) =>
      simp only [List.get?_cons_succ] at h
      obtain ⟨i, hi, hg⟩ := ih n (by simpa [List.append_assoc] using h)
      refine ⟨i + 2, by omega, ?_⟩
      simpa [List.append_assoc] using hg

/-- `findIdx` finds position `j` when the element there satisfies the
predicate and no earlier element does. -/
lemma findIdx_eq_of_get? {α : Type} (l : List α) (p : α → Bool) (j : Nat)
    (x : α) (hx : l.get? j = some x) (hpx : p x = true)
    (hbefore : ∀ i y, i < j → l.get? i = some y → p y = false) :
    l.findIdx p = j := by
  induction l generalizing j with
  | nil => simp at hx
  | cons a as ih =>
    match j with
    | 0 =>
      simp only [List.get?_cons_zero] at hx
      injection hx with hx
      subst hx
      simp [List.findIdx_cons, hpx]
    | (n + 1) =>
      have ha : p a = false := hbefore 0 a (by omega) List.get?_cons_zero
      simp only [List.get?_cons_succ] at hx
      rw [List.findIdx_cons]
      simp only [ha, cond_false]
      have := ih n hx
        (fun i y hi hy => hbefore (i + 1) y (by omega) (by simpa using hy))
      omega

/-- With pairwise-distinct uids, displays at distinct registry positions
have distinct uids. -/
lemma uid_ne_of_get?_ne (registry : List Display)
    (hnodup : (registry.map Display.uid).Nodup) {i j : Nat} {y d : Display}
    (hy : registry.get? i = some y) (hd : registry.get? j = some d)
    (hij : i ≠ j) : y.uid ≠ d.uid := by
  intro huid
  obtain ⟨hyl, hyg⟩ := List.get?_eq_some.mp hy
  obtain ⟨hdl, hdg⟩ := List.get?_eq_some.mp hd
  have hinj := List.nodup_iff_injective_get.mp hnodup
  have h1 : (registry.map Display.uid).get ⟨i, by simpa using hyl⟩
      = (registry.map Display.uid).get ⟨j, by simpa using hdl⟩ := by
    rw [List.get_map, List.get_map]
    simp only [hyg, hdg]
    exact huid
  have := hinj h1
  simp only [Fin.mk.injEq] at this
  omega

/-- With pairwise-distinct uids, `indexOfDisplay` recovers a display's
registry position. -/
lemma indexOfDisplay_eq (registry : List Display) (p : Nat) (d : Display)
    (hnodup : (registry.map Display.uid).Nodup)
    (hp : registry.get? p = some d) :
    indexOfDisplay registry d = p := by
  apply findIdx_eq_of_get? registry _ p d hp (by simp)
  intro i y hi hy
  simp only [decide_eq_false_iff_not]
  exact uid_ne_of_get?_ne registry hnodup hy hp (by omega)

/-- The first display of `getSelectedObjects` occupies some registry
position. -/
lemma getSelectedObjects_head (registry : List Display) (sel : List Nat)
    (d : Display) (rest : List Display)
    (h : getSelectedObjects registry sel = d :: rest) :
    ∃ p, registry.get? p = some d := by
  induction sel generalizing rest with
  | nil => simp [getSelectedObjects] at h
  | cons p ps ih =>
    simp only [getSelectedObjects, List.filterMap_cons] at h
    cases hp : registry.get? p with
    | none =>
      rw [hp] at h
      exact ih rest h
    | some b =>
      rw [hp] at h
      injection h with h1 _
      exact ⟨p, by rw [hp, h1]⟩

/-- Renaming by uid identity equals a single positional update when uids are
pairwise distinct. -/
lemma map_rename_eq_set (registry : List Display) (j : Nat) (d : Display)
    (newName : String) (hnodup : (registry.map Display.uid).Nodup)
    (hj : registry.get? j = some d) :
    registry.map (fun x =>
        if x.uid = d.uid then { x with name := newName } else x)
      = registry.set j { d with name := newName } := by
  apply List.ext_get?_iff.mpr
  intro n
  rw [List.get?_map]
  by_cases hn : n = j
  · subst hn
    obtain ⟨hl, _⟩ := List.get?_eq_some.mp hj
    rw [hj, List.get?_set_eq_of_lt _ hl]
    simp
  · rw [List.get?_set_ne _ _ (fun h => hn h.symm)]
    cases hy : registry.get? n with
    | none => simp
    | some y =>
      have := uid_ne_of_get?_ne registry hnodup hy hj hn
      simp [this]

/-- One unfolding step of `duplicateLoop`: the duplicate of `src` carries a
fresh uid, `src`'s class id, name and configuration, is appended to the
registry, and the loop continues on the extended state. -/
lemma duplicateLoop_cons (s : VMState) (src : Display) (rest : List Display) :
    duplicateLoop s (src :: rest)
      = ((duplicateLoop
            { registry := s.registry
                ++ [{ uid := s.nextUid, classId := src.classId,
                      name := src.name, config := src.config }],
              nextUid := s.nextUid + 1 } rest).1,
         { uid := s.nextUid, classId := src.classId, name := src.name,
           config := src.config }
           :: (duplicateLoop
                { registry := s.registry
                    ++ [{ uid := s.nextUid, classId := src.classId,
                          name := src.name, config := src.config }],
                  nextUid := s.nextUid + 1 } rest).2.1,
         Event.createDisplay src.classId src.name
           :: (duplicateLoop
                { registry := s.registry
                    ++ [{ uid := s.nextUid, classId := src.classId,
                          name := src.name, config := src.config }],
                  nextUid := s.nextUid + 1 } rest).2.2) := by
  simp [duplicateLoop, VMState.createDisplay, Display.load, Display.save,
    List.dropLast_concat]

/-- `duplicateLoop` appends its duplicates to the registry, advances the uid
supply by one per duplicate, and produces one duplicate per source. -/
lemma duplicateLoop_state (ds : List Display) : ∀ s : VMState,
    (duplicateLoop s ds).1.registry = s.registry ++ (duplicateLoop s ds).2.1 ∧
    (duplicateLoop s ds).1.nextUid = s.nextUid + ds.length ∧
    (duplicateLoop s ds).2.1.length = ds.length := by
  induction ds with
  | nil => intro s; simp [duplicateLoop]
  | cons src rest ih =>
    intro s
    rw [duplicateLoop_cons]
    obtain ⟨h1, h2, h3⟩ := ih
      { registry := s.registry
          ++ [{ uid := s.nextUid, classId := src.classId,
                name := src.name, config := src.config }],
        nextUid := s.nextUid + 1 }
    refine ⟨?_, ?_, ?_⟩
    · rw [h1]
      simp
    · rw [h2]
      simp only [List.length_cons]
      omega
    · simp [h3]

/-- The `i`-th duplicate produced by `duplicateLoop` copies the `i`-th
source's class id, name and configuration, under the fresh uid
`s.nextUid + i`. -/
lemma duplicateLoop_get? (ds : List Display) :
    ∀ (s : VMState) (i : Nat) (src : Display), ds.get? i = some src →
      (duplicateLoop s ds).2.1.get? i
        = some { uid := s.nextUid + i, classId := src.classId,
                 name := src.name, config := src.config } := by
  induction ds with
  | nil =>
    intro s i src h
    simp at h
  | cons a rest ih =>
    intro s i src h
    rw [duplicateLoop_cons]
    match i with
    | 0 =>
      simp only [List.get?_cons_zero] at h ⊢
      injection h with h
      subst h
      simp
    | (n + 1) =>
      simp only [List.get?_cons_succ] at h ⊢
      rw [ih _ n src h]
      have harith : s.nextUid + 1 + n = s.nextUid + (n + 1) := by omega
      simp [harith]

/-- `duplicateLoop` emits exactly one factory-creation event per source, in
order. -/
lemma duplicateLoop_events (ds : List Display) : ∀ s : VMState,
    (duplicateLoop s ds).2.2
      = ds.map (fun src => Event.createDisplay src.classId src.name) := by
  induction ds with
  | nil =>
    intro s
    simp [duplicateLoop]
  | cons src rest ih =>
    intro s
    rw [duplicateLoop_cons]
    simp [ih]

/-- A trace without resumes trivially has all resumes matched. -/
lemma resumesMatched_of_no_start (tr : List Event)
    (h : tr.count Event.startUpdate = 0) : resumesMatched tr := by
  intro n
  have := List.Sublist.count_le (List.take_sublist n tr) Event.startUpdate
  omega

/-- A trace that pauses first and resumes at most once afterwards has all
resumes matched. -/
lemma resumesMatched_cons_stop (rest : List Event)
    (h : rest.count Event.startUpdate ≤ 1) :
    resumesMatched (Event.stopUpdate :: rest) := by
  intro n
  match n with
  | 0 => simp
  | (m + 1) =>
    simp only [List.take_succ_cons, List.count_cons]
    have := List.Sublist.count_le (List.take_sublist m rest) Event.startUpdate
    simp only [beq_iff_eq, reduceCtorEq, if_false, if_true, beq_self_eq_true]
    omega

/-- A trace that pauses first (`stopUpdate` at the head) and resumes at most
once in total has all resumes matched. -/
lemma resumesMatched_of_count_le (tr : List Event)
    (hhead : tr.head? = some Event.stopUpdate)
    (hcount : tr.count Event.startUpdate ≤ 1) : resumesMatched tr := by
  cases tr with
  | nil => simp at hhead
  | cons a rest =>
    simp only [List.head?_cons, Option.some.injEq] at hhead
    subst hhead
    apply resumesMatched_cons_stop
    simp only [List.count_cons] at hcount
    omega

/-!  ## Claims  -/

/-- C1: for every delete operation and every display in the selection passed
to it, the controller severs all inbound notification channels to that
display (`disconnect`) before scheduling its destruction (`deleteLater`), and
destruction is deferred — the delete trace contains the display's scheduling
event, every scheduling event is strictly preceded by the matching
severance event, and no destruction is ever performed inline (no `destroy`
event occurs in the trace). -/
theorem onDeleteDisplay_severs_before_scheduling
    (registry : List Display) (sel : List Nat) (d : Display)
    (hd : d ∈ getSelectedObjects registry sel) :
    Event.deleteLater d.uid ∈ (onDeleteDisplay registry sel).1 ∧
    (∀ u j,
       (onDeleteDisplay registry sel).1.get? j = some (Event.deleteLater u) →
       ∃ i, i < j ∧
         (onDeleteDisplay registry sel).1.get? i
           = some (Event.disconnect u)) ∧
    (∀ u, Event.destroy u ∉ (onDeleteDisplay registry sel).1) := by
  refine ⟨?_, ?_, ?_⟩
  · exact List.mem_append_left _
      (List.mem_flatMap.2 ⟨d, hd, by simp⟩)
  · intro u j h
    exact deleteLater_preceded_by_disconnect _ _ (by intro u'; simp) u j h
  · intro u
    simp only [onDeleteDisplay, List.mem_append, List.mem_flatMap]
    rintro (⟨x, _, hmem⟩ | hmem) <;> simp_all

/-- Witness for C1: deleting the displays at rows 1 and 2 of the fixture
registry schedules the second display's deferred destruction. -/
theorem onDeleteDisplay_severs_before_scheduling_witness :
    Event.deleteLater 1 ∈ (onDeleteDisplay registryABC [1, 2]).1 :=
  (onDeleteDisplay_severs_before_scheduling registryABC [1, 2] dispB
    (by decide)).1

/-- C5: after delete on a non-empty selection (tree order is strictly
increasing, and the first selected row has a predecessor — the very first
structural rows cannot be deleted), the replacement selection is exactly the
row immediately preceding the first deleted display's row, and it never
references a removed item. -/
theorem onDeleteDisplay_selection_renormalized
    (registry : List Display) (sel : List Nat)
    (hnodup : (registry.map Display.uid).Nodup)
    (hvalid : ∀ p ∈ sel, p < registry.length)
    (hsorted : List.Pairwise (· < ·) sel)
    (hne : sel ≠ [])
    (hpos : 1 ≤ sel.headD 0) :
    (onDeleteDisplay registry sel).2 = some (sel.headD 0 - 1) ∧
    sel.headD 0 - 1 ∉ sel := by
  match sel, hne with
  | p :: rest, _ =>
    simp only [List.headD_cons] at hpos ⊢
    obtain ⟨d, hd⟩ : ∃ d, registry.get? p = some d := by
      have hp := hvalid p (by simp)
      exact ⟨registry.get ⟨p, hp⟩, List.get?_eq_get hp⟩
    constructor
    · simp only [onDeleteDisplay, getSelectedObjects, List.filterMap_cons, hd,
        List.head?_cons, Option.map_some']
      rw [indexOfDisplay_eq registry p d hnodup hd]
    · intro hmem
      rcases List.mem_cons.mp hmem with h | h
      · omega
      · have := List.rel_of_pairwise_cons hsorted h
        omega

/-- Witness for C5: on the 3-display fixture registry with rows 1 and 2
selected, delete leaves row 0 — the predecessor of the first deleted row —
selected, and the new selection is not among the deleted rows. -/
theorem onDeleteDisplay_selection_renormalized_witness :
    (onDeleteDisplay registryABC [1, 2]).2 = some 0 ∧
    (0 : Nat) ∉ [1, 2] := by
  have h := onDeleteDisplay_selection_renormalized registryABC [1, 2]
    (by decide) (by decide) (by decide) (by decide) (by decide)
  simpa using h

/-- C4: after every selection-change notification the affordance flags are a
pure function of the current selection (whatever registry state a preceding
mutating operation produced): duplicate and delete are enabled iff the
selection is non-empty, rename iff exactly one display is selected, and
save-group iff exactly one display is selected and that display is a
Group. -/
theorem onSelectionChanged_affordances (registry : List Display)
    (sel : List Nat) :
    ((onSelectionChanged registry sel).duplicateEnabled = true ↔
       getSelectedObjects registry sel ≠ []) ∧
    ((onSelectionChanged registry sel).removeEnabled = true ↔
       getSelectedObjects registry sel ≠ []) ∧
    ((onSelectionChanged registry sel).renameEnabled = true ↔
       (getSelectedObjects registry sel).length = 1) ∧
    ((onSelectionChanged registry sel).saveGroupEnabled = true ↔
       ∃ d, getSelectedObjects registry sel = [d] ∧ d.isGroup = true) := by
  cases h : getSelectedObjects registry sel with
  | nil => simp [onSelectionChanged, h]
  | cons d rest =>
    cases rest with
    | nil => simp [onSelectionChanged, h]
    | cons e rest' => simp [onSelectionChanged, h]

/-- C6: rename operates only on the first selected display and is a no-op on
an empty selection; an empty or unchanged user input mutates nothing;
otherwise exactly the first selected display's name is set to the new name —
the result is a single positional update of the registry, so no other
display's name changes and the registry structure is untouched. -/
theorem onRenameDisplay_spec (registry : List Display) (sel : List Nat)
    (newName : String) (hnodup : (registry.map Display.uid).Nodup) :
    (getSelectedObjects registry sel = [] →
       (onRenameDisplay registry sel newName).1 = registry) ∧
    (∀ d rest, getSelectedObjects registry sel = d :: rest →
       ((newName.isEmpty = true ∨ newName = d.name) →
          (onRenameDisplay registry sel newName).1 = registry) ∧
       (newName.isEmpty = false → newName ≠ d.name →
          ∃ j, registry.get? j = some d ∧
            (onRenameDisplay registry sel newName).1
              = registry.set j { d with name := newName })) := by
  constructor
  · intro h
    simp [onRenameDisplay, h]
  · intro d rest h
    constructor
    · rintro (hc | hc) <;> simp [onRenameDisplay, h, hc]
    · intro hemp hne
      obtain ⟨j, hj⟩ := getSelectedObjects_head registry sel d rest h
      refine ⟨j, hj, ?_⟩
      simp only [onRenameDisplay, h]
      rw [if_neg (by simp [hemp, hne])]
      exact map_rename_eq_set registry j d newName hnodup hj

/-- Witness for C6: renaming with selection `[1]` and input `"Camera"`
updates exactly the fixture registry's position-1 display's name. -/
theorem onRenameDisplay_spec_witness :
    ∃ j, registryABC.get? j = some dispB ∧
      (onRenameDisplay registryABC [1] "Camera").1
        = registryABC.set j { dispB with name := "Camera" } :=
  ((onRenameDisplay_spec registryABC [1] "Camera" (by decide)).2 dispB []
    (by decide)).2 (by decide) (by decide)

/-- C7: load-group surfaces a user-visible error and aborts without any
state change when the chosen path does not exist; aborts silently (no error
surfaced, no registry mutation) when reading the file fails; delegates to the
host (`loadGroup`) only on a successful read; and pauses and resumes the
update loop on every one of these paths. -/
theorem onLoadGroupDisplay_spec (filename : String)
    (pathExists readOk : Bool) :
    (Event.stopUpdate ∈ onLoadGroupDisplay filename pathExists readOk ∧
     Event.startUpdate ∈ onLoadGroupDisplay filename pathExists readOk) ∧
    (filename.isEmpty = false → pathExists = false →
       Event.showError "Config file does not exist"
           (filename ++ " does not exist!")
         ∈ onLoadGroupDisplay filename pathExists readOk ∧
       Event.loadGroup ∉ onLoadGroupDisplay filename pathExists readOk ∧
       (∀ c n, Event.createDisplay c n
          ∉ onLoadGroupDisplay filename pathExists readOk)) ∧
    (pathExists = true → readOk = false →
       Event.loadGroup ∉ onLoadGroupDisplay filename pathExists readOk ∧
       (∀ t m, Event.showError t m
          ∉ onLoadGroupDisplay filename pathExists readOk) ∧
       (∀ c n, Event.createDisplay c n
          ∉ onLoadGroupDisplay filename pathExists readOk)) ∧
    (filename.isEmpty = false → pathExists = true → readOk = true →
       Event.loadGroup ∈ onLoadGroupDisplay filename pathExists readOk) := by
  refine ⟨?_, ?_, ?_, ?_⟩
  · constructor <;> simp [onLoadGroupDisplay]
  · intro hfe hpe
    simp [onLoadGroupDisplay, hfe, hpe]
  · intro hpe hre
    cases hfe : filename.isEmpty <;>
      simp [onLoadGroupDisplay, hfe, hpe, hre]
  · intro hfe hpe hre
    simp [onLoadGroupDisplay, hfe, hpe, hre]

/-- Witness for C7: loading `"missing.rviz"` when the path does not exist
surfaces the error message, never reaches `loadGroup`, and still resumes the
update loop. -/
theorem onLoadGroupDisplay_spec_witness :
    Event.showError "Config file does not exist" "missing.rviz does not exist!"
      ∈ onLoadGroupDisplay "missing.rviz" false false ∧
    Event.loadGroup ∉ onLoadGroupDisplay "missing.rviz" false false ∧
    Event.startUpdate ∈ onLoadGroupDisplay "missing.rviz" false false := by
  have h := onLoadGroupDisplay_spec "missing.rviz" false false
  exact ⟨(h.2.1 (by decide) rfl).1, (h.2.1 (by decide) rfl).2.1, h.1.2⟩

/-- C8: save-group with exactly one selected display appends the canonical
extension when the chosen filename's extension is missing or differs from it,
writes the selected display's serialized configuration through the writer,
surfaces a user-visible failure carrying the writer-reported message exactly
when the writer reports an error, and performs no registry mutation. -/
theorem onSaveGroupDisplay_spec (registry : List Display) (sel : List Nat)
    (saveFilename : String) (writerError : Option String) (d : Display)
    (hsel : getSelectedObjects registry sel = [d])
    (hne : saveFilename.isEmpty = false) :
    (pathExtension saveFilename ≠ "." ++ CONFIG_EXTENSION →
       Event.writeFile (saveFilename ++ "." ++ CONFIG_EXTENSION) d.config
         ∈ onSaveGroupDisplay registry sel saveFilename writerError) ∧
    (pathExtension saveFilename = "." ++ CONFIG_EXTENSION →
       Event.writeFile saveFilename d.config
         ∈ onSaveGroupDisplay registry sel saveFilename writerError) ∧
    (∀ msg, writerError = some msg →
       Event.showError "Failed to save." msg
         ∈ onSaveGroupDisplay registry sel saveFilename writerError) ∧
    (writerError = none →
       ∀ t m, Event.showError t m
         ∉ onSaveGroupDisplay registry sel saveFilename writerError) ∧
    (∀ c n, Event.createDisplay c n
       ∉ onSaveGroupDisplay registry sel saveFilename writerError) ∧
    (∀ u, Event.deleteLater u
       ∉ onSaveGroupDisplay registry sel saveFilename writerError) := by
  refine ⟨?_, ?_, ?_, ?_, ?_, ?_⟩
  · intro hext
    simp [onSaveGroupDisplay, hsel, hne, hext, Display.save]
  · intro hext
    simp [onSaveGroupDisplay, hsel, hne, hext, Display.save]
  · intro msg hmsg
    subst hmsg
    by_cases hext : pathExtension saveFilename = "." ++ CONFIG_EXTENSION <;>
      simp [onSaveGroupDisplay, hsel, hne, hext]
  · intro hnone t m
    subst hnone
    by_cases hext : pathExtension saveFilename = "." ++ CONFIG_EXTENSION <;>
      simp [onSaveGroupDisplay, hsel, hne, hext]
  · intro c n
    rcases writerError with _ | msg <;>
      by_cases hext : pathExtension saveFilename = "." ++ CONFIG_EXTENSION <;>
        simp [onSaveGroupDisplay, hsel, hne, hext]
  · intro u
    rcases writerError with _ | msg <;>
      by_cases hext : pathExtension saveFilename = "." ++ CONFIG_EXTENSION <;>
        simp [onSaveGroupDisplay, hsel, hne, hext]

/-- Witness for C8: saving the selected group display to `"scene"` (no
extension) writes `"scene.rviz"` with the display's configuration, and a
writer error `"disk full"` surfaces the failure dialog with that message. -/
theorem onSaveGroupDisplay_spec_witness :
    Event.writeFile "scene.rviz" dispC.config
      ∈ onSaveGroupDisplay registryABC [2] "scene" (some "disk full") ∧
    Event.showError "Failed to save." "disk full"
      ∈ onSaveGroupDisplay registryABC [2] "scene" (some "disk full") := by
  have h := onSaveGroupDisplay_spec registryABC [2] "scene" (some "disk full")
    dispC (by decide) (by decide)
  exact ⟨h.1 (by decide), h.2.2.1 "disk full" rfl⟩

/-- C9: add pauses the update loop before the interactive prompt and resumes
it unconditionally afterward on both the confirmed and the cancelled path;
on confirmation a new display is created via the factory and appended, and
it is configured to consume the supplied topic exactly when both topic and
datatype are non-empty; on cancellation the host state is unchanged. -/
theorem onNewDisplay_spec (s : VMState) (dialog : DialogResult) :
    ((onNewDisplay s dialog).2.get? 0 = some Event.stopUpdate ∧
     (onNewDisplay s dialog).2.get? 1 = some Event.prompt ∧
     (onNewDisplay s dialog).2.getLast? = some Event.startUpdate) ∧
    (dialog = none → (onNewDisplay s dialog).1 = s) ∧
    (∀ lookupName displayName topic datatype,
       dialog = some (lookupName, displayName, topic, datatype) →
       (onNewDisplay s dialog).1.registry
         = s.registry
             ++ [{ uid := s.nextUid, classId := lookupName,
                   name := displayName, config := Config.empty }] ∧
       ((topic.isEmpty = false ∧ datatype.isEmpty = false) ↔
          Event.setTopic s.nextUid topic datatype
            ∈ (onNewDisplay s dialog).2)) := by
  refine ⟨?_, ?_, ?_⟩
  · rcases dialog with _ | ⟨l, n, t, dt⟩
    · exact ⟨rfl, rfl, rfl⟩
    · refine ⟨rfl, rfl, ?_⟩
      simp only [onNewDisplay]
      split <;> rfl
  · intro h
    subst h
    rfl
  · intro l n t dt h
    subst h
    constructor
    · rfl
    · by_cases hc : ¬t.isEmpty ∧ ¬dt.isEmpty <;>
        constructor <;>
          simp_all [onNewDisplay, VMState.createDisplay]

/-- Witness for C9: confirming the dialog with a topic and datatype creates
the display and configures its topic; cancelling leaves the state
unchanged. -/
theorem onNewDisplay_spec_witness :
    ((onNewDisplay stateABC none).1 = stateABC) ∧
    ((onNewDisplay stateABC
        (some ("rviz/Camera", "Cam", "/cam", "sensor_msgs/Image"))).1.registry
      = registryABC
          ++ [{ uid := 3, classId := "rviz/Camera", name := "Cam",
                config := Config.empty }]) := by
  refine ⟨(onNewDisplay_spec stateABC none).2.1 rfl, ?_⟩
  exact ((onNewDisplay_spec stateABC
    (some ("rviz/Camera", "Cam", "/cam", "sensor_msgs/Image"))).2.2
    "rviz/Camera" "Cam" "/cam" "sensor_msgs/Image" rfl).1

/-- C10 (implicit): the save-group operation itself checks only that exactly
one display is selected, not that it is a Group — invoked with a single
selected non-Group display and a confirmed filename it still proceeds to
serialize and write that display's configuration; the Group restriction
lives solely in the affordance logic, whose runtime type test disables the
button for that same selection. -/
theorem onSaveGroupDisplay_no_group_guard (registry : List Display)
    (sel : List Nat) (d : Display) (fname : String)
    (hsel : getSelectedObjects registry sel = [d])
    (hng : d.isGroup = false)
    (hne : fname.isEmpty = false) :
    (∃ f, Event.writeFile f d.config
       ∈ onSaveGroupDisplay registry sel fname none) ∧
    (onSelectionChanged registry sel).saveGroupEnabled = false := by
  constructor
  · by_cases hext : pathExtension fname = "." ++ CONFIG_EXTENSION
    · exact ⟨fname,
        by simp [onSaveGroupDisplay, hsel, hne, hext, Display.save]⟩
    · exact ⟨fname ++ "." ++ CONFIG_EXTENSION,
        by simp [onSaveGroupDisplay, hsel, hne, hext, Display.save]⟩
  · simp [onSelectionChanged, hsel, hng]

/-- Witness for C10: with only the non-group position-0 display selected,
save-group still writes its configuration while the save-group button is
disabled. -/
theorem onSaveGroupDisplay_no_group_guard_witness :
    (∃ f, Event.writeFile f dispA.config
       ∈ onSaveGroupDisplay registryABC [0] "cfg" none) ∧
    (onSelectionChanged registryABC [0]).saveGroupEnabled = false :=
  onSaveGroupDisplay_no_group_guard registryABC [0] dispA "cfg"
    (by decide) (by decide) (by decide)

/-- C3: duplicate creates, in selection order, exactly one new display per
selected display — same class id, same name, configuration value-equal to the
source via the save/load round trip, but a distinct identity (a uid no
pre-existing display carries) — appended after the untouched originals; the
empty selection creates nothing; and for a non-empty selection the new
selection is the contiguous range from the first to the last newly created
display. -/
theorem onDuplicateDisplay_spec (s : VMState) (sel : List Nat)
    (hfresh : s.uidsFresh) :
    ((onDuplicateDisplay s sel).1.registry.length
       = s.registry.length + (getSelectedObjects s.registry sel).length) ∧
    ((onDuplicateDisplay s sel).1.registry.take s.registry.length
       = s.registry) ∧
    (∀ i src, (getSelectedObjects s.registry sel).get? i = some src →
       ∃ dnew,
         (onDuplicateDisplay s sel).1.registry.get? (s.registry.length + i)
           = some dnew ∧
         dnew.classId = src.classId ∧ dnew.name = src.name ∧
         dnew.config = src.config ∧
         ∀ x ∈ s.registry, x.uid ≠ dnew.uid) ∧
    (getSelectedObjects s.registry sel = [] →
       (onDuplicateDisplay s sel).1.registry = s.registry ∧
       ∀ c n, Event.createDisplay c n ∉ (onDuplicateDisplay s sel).2) ∧
    (getSelectedObjects s.registry sel ≠ [] →
       Event.selectRange s.registry.length
           (s.registry.length
             + (getSelectedObjects s.registry sel).length - 1)
         ∈ (onDuplicateDisplay s sel).2) := by
  obtain ⟨hreg, hnext, hlen⟩ :=
    duplicateLoop_state (getSelectedObjects s.registry sel) s
  have hfst : (onDuplicateDisplay s sel).1
      = (duplicateLoop s (getSelectedObjects s.registry sel)).1 := rfl
  refine ⟨?_, ?_, ?_, ?_, ?_⟩
  · rw [hfst, hreg, List.length_append, hlen]
  · rw [hfst, hreg]
    exact List.take_left _ _
  · intro i src hi
    refine ⟨{ uid := s.nextUid + i, classId := src.classId, name := src.name,
              config := src.config }, ?_, rfl, rfl, rfl, ?_⟩
    · rw [hfst, hreg, List.get?_append_right (by omega)]
      have h : s.registry.length + i - s.registry.length = i := by omega
      rw [h, duplicateLoop_get? _ _ _ _ hi]
    · intro x hx
      have := hfresh x hx
      simp only [ne_eq]
      omega
  · intro hempty
    constructor
    · rw [hfst, hempty]
      simp [duplicateLoop]
    · intro c n
      simp only [onDuplicateDisplay, hempty]
      simp [duplicateLoop]
  · intro hne
    have hk : 0 < (getSelectedObjects s.registry sel).length :=
      List.length_pos.mpr hne
    obtain ⟨src0, hsrc0⟩ :
        ∃ src0, (getSelectedObjects s.registry sel).get? 0 = some src0 :=
      ⟨_, List.get?_eq_get hk⟩
    obtain ⟨srcl, hsrcl⟩ :
        ∃ srcl, (getSelectedObjects s.registry sel).get?
            ((getSelectedObjects s.registry sel).length - 1) = some srcl :=
      ⟨_, List.get?_eq_get (by omega)⟩
    have hd0 := duplicateLoop_get? (getSelectedObjects s.registry sel) s 0
      src0 hsrc0
    have hdl := duplicateLoop_get? (getSelectedObjects s.registry sel) s
      ((getSelectedObjects s.registry sel).length - 1) srcl hsrcl
    have hhead :
        (duplicateLoop s (getSelectedObjects s.registry sel)).2.1.head?
          = some { uid := s.nextUid + 0, classId := src0.classId,
                   name := src0.name, config := src0.config } := by
      rw [← hd0]
      cases h : (duplicateLoop s (getSelectedObjects s.registry sel)).2.1 with
      | nil => simp
      | cons a t => simp
    have hlast :
        (duplicateLoop s (getSelectedObjects s.registry sel)).2.1.getLast?
          = some { uid := s.nextUid
                     + ((getSelectedObjects s.registry sel).length - 1),
                   classId := srcl.classId, name := srcl.name,
                   config := srcl.config } := by
      rw [List.getLast?_eq_get?, hlen, hdl]
    have hidx0 :
        indexOfDisplay
            (duplicateLoop s (getSelectedObjects s.registry sel)).1.registry
            { uid := s.nextUid + 0, classId := src0.classId,
              name := src0.name, config := src0.config }
          = s.registry.length := by
      rw [hreg]
      apply findIdx_eq_of_get? _ _ s.registry.length
        { uid := s.nextUid + 0, classId := src0.classId,
          name := src0.name, config := src0.config }
      · rw [List.get?_append_right (le_refl _), Nat.sub_self]
        exact hd0
      · simp
      · intro j y hj hy
        rw [List.get?_append hj] at hy
        have := hfresh y (List.get?_mem hy)
        simp only [decide_eq_false_iff_not]
        omega
    have hidxl :
        indexOfDisplay
            (duplicateLoop s (getSelectedObjects s.registry sel)).1.registry
            { uid := s.nextUid
                + ((getSelectedObjects s.registry sel).length - 1),
              classId := srcl.classId, name := srcl.name,
              config := srcl.config }
          = s.registry.length
              + ((getSelectedObjects s.registry sel).length - 1) := by
      rw [hreg]
      apply findIdx_eq_of_get? _ _
        (s.registry.length + ((getSelectedObjects s.registry sel).length - 1))
        { uid := s.nextUid
            + ((getSelectedObjects s.registry sel).length - 1),
          classId := srcl.classId, name := srcl.name, config := srcl.config }
      · rw [List.get?_append_right (by omega)]
        have h : s.registry.length
              + ((getSelectedObjects s.registry sel).length - 1)
              - s.registry.length
            = (getSelectedObjects s.registry sel).length - 1 := by omega
        rw [h]
        exact hdl
      · simp
      · intro j y hj hy
        simp only [decide_eq_false_iff_not]
        by_cases hjn : j < s.registry.length
        · rw [List.get?_append hjn] at hy
          have := hfresh y (List.get?_mem hy)
          omega
        · push_neg at hjn
          rw [List.get?_append_right hjn] at hy
          obtain ⟨srcm, hsrcm⟩ :
              ∃ srcm, (getSelectedObjects s.registry sel).get?
                  (j - s.registry.length) = some srcm := by
            refine ⟨_, List.get?_eq_get ?_⟩
            omega
          rw [duplicateLoop_get? _ _ _ _ hsrcm] at hy
          injection hy with hy
          subst hy
          simp only [Display.uid]
          omega
    have hheadD :
        (duplicateLoop s (getSelectedObjects s.registry sel)).2.1.headD
            Display.dummy
          = { uid := s.nextUid + 0, classId := src0.classId,
              name := src0.name, config := src0.config } := by
      rw [List.headD_eq_head?, hhead, Option.getD_some]
    have hlastD :
        (duplicateLoop s (getSelectedObjects s.registry sel)).2.1.getLastD
            Display.dummy
          = { uid := s.nextUid
                + ((getSelectedObjects s.registry sel).length - 1),
              classId := srcl.classId, name := srcl.name,
              config := srcl.config } := by
      rw [List.getLastD_eq_getLast?, hlast, Option.getD_some]
    simp only [onDuplicateDisplay]
    rw [if_pos (by rw [hlen]; exact hk), hheadD, hlastD, hidx0, hidxl]
    have h : s.registry.length
          + ((getSelectedObjects s.registry sel).length - 1)
        = s.registry.length
            + (getSelectedObjects s.registry sel).length - 1 := by omega
    rw [h]
    simp

/-- Witness for C3: duplicating the selection `[0, 1]` of the fixture state
yields a registry of four displays whose prefix is the original registry. -/
theorem onDuplicateDisplay_spec_witness :
    (onDuplicateDisplay stateABC [0, 1]).1.registry.length = 3 + 2 ∧
    (onDuplicateDisplay stateABC [0, 1]).1.registry.take 3 = registryABC := by
  have h := onDuplicateDisplay_spec stateABC [0, 1]
    (by simp only [VMState.uidsFresh]; decide)
  exact ⟨h.1, h.2.1⟩

/-- Counterexample for C2: the duplicate operation — here on the fixture
state with the position-0 display selected — issues exactly one resume
(`startUpdate`) while issuing no pause (`stopUpdate`) at all, so its resume
is not matched by any preceding pause issued within the operation. -/
theorem onDuplicateDisplay_unpaired_resume_counterexample :
    (onDuplicateDisplay stateABC [0]).2.count Event.startUpdate = 1 ∧
    (onDuplicateDisplay stateABC [0]).2.count Event.stopUpdate = 0 := by
  decide

/-- C2 (amended): add, save-group and load-group pause and resume the update
loop in exact balance on every exit path, with every resume preceded by a
pause; delete and rename never touch the loop; and no operation leaves the
loop paused — but duplicate issues exactly one resume (`startUpdate`) with
no pause (`stopUpdate`) at all, so its resume is unmatched. -/
theorem pause_resume_balance_amended
    (s s2 : VMState) (dialog : DialogResult) (registry : List Display)
    (selDup selDel selRen selSave : List Nat) (newName fnameSave : String)
    (writerError : Option String) (fnameLoad : String)
    (pathExists readOk : Bool) :
    ((onNewDisplay s dialog).2.count Event.stopUpdate = 1 ∧
     (onNewDisplay s dialog).2.count Event.startUpdate = 1 ∧
     resumesMatched (onNewDisplay s dialog).2) ∧
    ((onSaveGroupDisplay registry selSave fnameSave writerError).count
         Event.stopUpdate
       = (onSaveGroupDisplay registry selSave fnameSave writerError).count
           Event.startUpdate ∧
     resumesMatched
       (onSaveGroupDisplay registry selSave fnameSave writerError)) ∧
    ((onLoadGroupDisplay fnameLoad pathExists readOk).count Event.stopUpdate
       = 1 ∧
     (onLoadGroupDisplay fnameLoad pathExists readOk).count Event.startUpdate
       = 1 ∧
     resumesMatched (onLoadGroupDisplay fnameLoad pathExists readOk)) ∧
    ((onDeleteDisplay registry selDel).1.count Event.stopUpdate = 0 ∧
     (onDeleteDisplay registry selDel).1.count Event.startUpdate = 0) ∧
    ((onRenameDisplay registry selRen newName).2.count Event.stopUpdate = 0 ∧
     (onRenameDisplay registry selRen newName).2.count Event.startUpdate
       = 0) ∧
    ((onDuplicateDisplay s2 selDup).2.count Event.stopUpdate = 0 ∧
     (onDuplicateDisplay s2 selDup).2.count Event.startUpdate = 1) := by
  refine ⟨⟨?_, ?_, ?_⟩, ⟨?_, ?_⟩, ⟨?_, ?_, ?_⟩, ⟨?_, ?_⟩, ⟨?_, ?_⟩,
    ⟨?_, ?_⟩⟩
  · rcases dialog with _ | ⟨l, n, t, dt⟩
    · rfl
    · simp only [onNewDisplay]
      split <;> simp [List.count_append, List.count_cons]
  · rcases dialog with _ | ⟨l, n, t, dt⟩
    · rfl
    · simp only [onNewDisplay]
      split <;> simp [List.count_append, List.count_cons]
  · apply resumesMatched_of_count_le
    · rcases dialog with _ | ⟨l, n, t, dt⟩ <;> rfl
    · rcases dialog with _ | ⟨l, n, t, dt⟩
      · exact Nat.le.refl
      · simp only [onNewDisplay]
        split <;> simp [List.count_append, List.count_cons]
  · cases h : getSelectedObjects registry selSave with
    | nil => simp [onSaveGroupDisplay, h]
    | cons d rest =>
      cases rest with
      | nil =>
        by_cases hf : fnameSave.isEmpty <;>
          rcases writerError with _ | msg <;>
            by_cases hext :
                pathExtension fnameSave = "." ++ CONFIG_EXTENSION <;>
              simp [onSaveGroupDisplay, h, hf, hext, List.count_append,
                List.count_cons]
      | cons e rest2 => simp [onSaveGroupDisplay, h]
  · cases h : getSelectedObjects registry selSave with
    | nil =>
      apply resumesMatched_of_no_start
      simp [onSaveGroupDisplay, h]
    | cons d rest =>
      cases rest with
      | nil =>
        apply resumesMatched_of_count_le
        · simp [onSaveGroupDisplay, h]
        · by_cases hf : fnameSave.isEmpty <;>
            rcases writerError with _ | msg <;>
              by_cases hext :
                  pathExtension fnameSave = "." ++ CONFIG_EXTENSION <;>
                simp [onSaveGroupDisplay, h, hf, hext, List.count_append,
                  List.count_cons]
      | cons e rest2 =>
        apply resumesMatched_of_no_start
        simp [onSaveGroupDisplay, h]
  · by_cases hf : fnameLoad.isEmpty <;>
      cases pathExists <;> cases readOk <;>
        simp [onLoadGroupDisplay, hf, List.count_append, List.count_cons]
  · by_cases hf : fnameLoad.isEmpty <;>
      cases pathExists <;> cases readOk <;>
        simp [onLoadGroupDisplay, hf, List.count_append, List.count_cons]
  · apply resumesMatched_of_count_le
    · rfl
    · by_cases hf : fnameLoad.isEmpty <;>
        cases pathExists <;> cases readOk <;>
          simp [onLoadGroupDisplay, hf, List.count_append, List.count_cons]
  · rw [List.count_eq_zero]
    simp only [onDeleteDisplay, List.mem_append, List.mem_flatMap]
    rintro (⟨x, _, hx⟩ | hx) <;> simp_all
  · rw [List.count_eq_zero]
    simp only [onDeleteDisplay, List.mem_append, List.mem_flatMap]
    rintro (⟨x, _, hx⟩ | hx) <;> simp_all
  · cases h : getSelectedObjects registry selRen with
    | nil => simp [onRenameDisplay, h]
    | cons d rest =>
      by_cases hc : newName.isEmpty ∨ newName = d.name <;>
        simp [onRenameDisplay, h, hc]
  · cases h : getSelectedObjects registry selRen with
    | nil => simp [onRenameDisplay, h]
    | cons d rest =>
      by_cases hc : newName.isEmpty ∨ newName = d.name <;>
        simp [onRenameDisplay, h, hc]
  · simp only [onDuplicateDisplay]
    rw [List.count_append, List.count_append, duplicateLoop_events]
    have h1 : ((getSelectedObjects s2.registry selDup).map
          (fun src => Event.createDisplay src.classId src.name)).count
        Event.stopUpdate = 0 := by
      rw [List.count_eq_zero]
      simp
    rw [h1]
    by_cases hc :
        0 < (duplicateLoop s2 (getSelectedObjects s2.registry selDup)).2.1.length <;>
      simp [hc, List.count_cons]
  · simp only [onDuplicateDisplay]
    rw [List.count_append, List.count_append, duplicateLoop_events]
    have h1 : ((getSelectedObjects s2.registry selDup).map
          (fun src => Event.createDisplay src.classId src.name)).count
        Event.startUpdate = 0 := by
      rw [List.count_eq_zero]
      simp
    rw [h1]
    by_cases hc :
        0 < (duplicateLoop s2 (getSelectedObjects s2.registry selDup)).2.1.length <;>
      simp [hc, List.count_cons]

end Rviz
